import Mathlib

/-!
Verification development for the `use-async-task` repository.

The repository consists of two modules that carry the logic under
verification:

* `packages/use-async-task/src/store.ts` — a process-wide keyed state
  store (`globalStore : Map<string, TaskState>` plus
  `listeners : Map<string, Set<StateListener>>`) with `getState`,
  `setState`, `deleteState`, `createInitialState`, `isCacheValid`,
  `subscribe` and the internal `notifyListeners`.
* `packages/use-async-task/src/useAsyncTask.ts` — the task controller
  (the React hook).  The repository contains two revisions of this file;
  the second revision adds an `AbortController`-based cancellation handle
  and resolves dynamic task keys to their actual string value for
  subscriptions.  The controller model below follows the second
  revision, which subsumes the first for every generation/race question
  (the first revision has no abort signal, so its staleness guard is the
  pure request-generation comparison, a special case of the model with
  an empty aborted set).

Modelling conventions:
* TypeScript `null`/`undefined` are both `Option.none` (no claim
  distinguishes them).
* Timestamps (`Date.now()`) and `cacheTime` are `Int`; the current time
  is passed explicitly wherever the source calls `Date.now()`.
* JavaScript `Map` objects are association lists with unique keys
  (`alGet` / `alSet` / `alDelete` below); `Set<listener>` objects are
  duplicate-free `List Nat`, a listener being identified by a numeric
  id standing for the function identity used by `Set`.
* The listeners themselves are opaque: a store operation returns, next
  to the new store, the list of `(listenerId, payload)` notification
  deliveries that the source performs synchronously.
-/

namespace AsyncTask

/-! ### Data model (`types.ts`) -/

/-- `AsyncState<T, TError>` from `types.ts`: the externally visible
snapshot `{ data, loading, error, retryCount, lastUpdated }`. -/
structure AsyncState (T E : Type) where
  data : Option T
  loading : Bool
  error : Option E
  retryCount : Nat
  lastUpdated : Option Int
  deriving Repr, DecidableEq

/-- `TaskState<T, TError>` from `types.ts`: `AsyncState` plus the
store-internal `requestId` staleness token. -/
structure TaskState (T E : Type) extends AsyncState T E where
  requestId : Nat
  deriving Repr, DecidableEq

/-! ### Association lists standing for the JavaScript `Map`s -/

/-- `Map.get`: first (and, for unique-keyed lists, only) binding. -/
def alGet {α : Type} : List (String × α) → String → Option α
  | [], _ => none
  | (k', v) :: rest, k => if k' = k then some v else alGet rest k

/-- `Map.set`: replace the binding in place, or append a new one. -/
def alSet {α : Type} : List (String × α) → String → α → List (String × α)
  | [], k, v => [(k, v)]
  | (k', v') :: rest, k, v =>
      if k' = k then (k, v) :: rest else (k', v') :: alSet rest k v

/-- `Map.delete`: drop every binding for the key.  A JavaScript `Map`
holds at most one binding per key, so dropping all coincides with
dropping the one. -/
def alDelete {α : Type} : List (String × α) → String → List (String × α)
  | [], _ => []
  | (k', v') :: rest, k =>
      if k' = k then alDelete rest k else (k', v') :: alDelete rest k

@[simp]
theorem alGet_nil {α : Type} (k : String) : alGet ([] : List (String × α)) k = none := rfl

@[simp]
theorem alGet_alSet_self {α : Type} (m : List (String × α)) (k : String) (v : α) :
    alGet (alSet m k v) k = some v := by
  induction m with
  | nil => simp [alGet, alSet]
  | cons hd tl ih =>
      obtain ⟨k', v'⟩ := hd
      by_cases h : k' = k
      · simp [alGet, alSet, h]
      · simp [alGet, alSet, h, ih]

theorem alGet_alSet_ne {α : Type} (m : List (String × α)) {k k' : String} (v : α)
    (h : k' ≠ k) : alGet (alSet m k v) k' = alGet m k' := by
  induction m with
  | nil => simp [alGet, alSet, Ne.symm h]
  | cons hd tl ih =>
      obtain ⟨k₀, v₀⟩ := hd
      by_cases h₀ : k₀ = k
      · subst h₀
        simp [alGet, alSet, Ne.symm h]
      · simp [alGet, alSet, h₀, ih]

@[simp]
theorem alGet_alDelete_self {α : Type} (m : List (String × α)) (k : String) :
    alGet (alDelete m k) k = none := by
  induction m with
  | nil => simp [alGet, alDelete]
  | cons hd tl ih =>
      obtain ⟨k', v'⟩ := hd
      by_cases h : k' = k
      · simp [alDelete, h, ih]
      · simp [alGet, alDelete, h, ih]

theorem alSet_alSet_self {α : Type} (m : List (String × α)) (k : String) (v w : α) :
    alSet (alSet m k v) k w = alSet m k w := by
  induction m with
  | nil => simp [alSet]
  | cons hd tl ih =>
      obtain ⟨k', v'⟩ := hd
      by_cases h : k' = k
      · simp [alSet, h]
      · simp [alSet, h, ih]

/-! ### The keyed state store (`store.ts`) -/

/-- The store module's two module-level `Map`s: `globalStore` and
`listeners`. -/
structure Store (T E : Type) where
  entries : List (String × TaskState T E)
  listeners : List (String × List Nat)
  deriving Repr, DecidableEq

/-- The initial (module-load) store: both maps empty. -/
def emptyStore (T E : Type) : Store T E := ⟨[], []⟩

/-- `createInitialState(requestId = 0)`: every field at its empty value. -/
def createInitialState (T E : Type) (requestId : Nat) : TaskState T E :=
  { data := none, loading := false, error := none, retryCount := 0,
    lastUpdated := none, requestId := requestId }

/-- `getState(key)`: look the key up in `globalStore`; `null` when
absent. -/
def getState {T E : Type} (st : Store T E) (k : String) : Option (TaskState T E) :=
  alGet st.entries k

/-- The listener set currently registered for a key (empty when the
`listeners` map has no binding). -/
def listenersOf {T E : Type} (st : Store T E) (k : String) : List Nat :=
  (alGet st.listeners k).getD []

/-- `notifyListeners(key, state)`: deliver to every listener of `key`
the `AsyncState` projection of `state` — the destructuring
`const { data, loading, error, retryCount, lastUpdated } = state`
drops the `requestId` field.  The result is the list of synchronous
deliveries, in set-iteration (insertion) order. -/
def notifyListeners {T E : Type} (st : Store T E) (k : String) (state : TaskState T E) :
    List (Nat × AsyncState T E) :=
  (listenersOf st k).map (fun l => (l, state.toAsyncState))

/-- `setState(key, state)`: overwrite the entry, then notify the key's
listeners. -/
def setState {T E : Type} (st : Store T E) (k : String) (state : TaskState T E) :
    Store T E × List (Nat × AsyncState T E) :=
  ({ st with entries := alSet st.entries k state }, notifyListeners st k state)

/-- `deleteState(key)`: remove the entry and notify the key's listeners
with a fresh initial state. -/
def deleteState {T E : Type} (st : Store T E) (k : String) :
    Store T E × List (Nat × AsyncState T E) :=
  ({ st with entries := alDelete st.entries k },
    notifyListeners st k (createInitialState T E 0))

/-- `isCacheValid(state, cacheTime)`: the guard
`if (!state || !state.lastUpdated || cacheTime <= 0) return false`
followed by `now - state.lastUpdated < cacheTime`.  JavaScript
truthiness makes `!state.lastUpdated` hold both for `null` and for the
number `0`, so a present `lastUpdated = 0` is rejected as well.  `now`
stands for the `Date.now()` read inside the function. -/
def isCacheValid {T E : Type} (state : Option (TaskState T E)) (cacheTime : Int)
    (now : Int) : Bool :=
  match state with
  | none => false
  | some s =>
      match s.lastUpdated with
      | none => false
      | some lu =>
          if lu = 0 then false
          else if cacheTime ≤ 0 then false
          else decide (now - lu < cacheTime)

/-- JavaScript `Set.prototype.add`: a no-op when the element is already
a member, otherwise append in insertion order. -/
def setAdd (cur : List Nat) (l : Nat) : List Nat :=
  if l ∈ cur then cur else cur ++ [l]

/-- `subscribe(key, listener)`, registration half: ensure a set exists
for the key (`getD []`), then `Set.add` the listener. -/
def subscribe {T E : Type} (st : Store T E) (k : String) (l : Nat) : Store T E :=
  let cur := (alGet st.listeners k).getD []
  { st with listeners := alSet st.listeners k (setAdd cur l) }

/-- The unsubscribe closure returned by `subscribe(key, listener)`:
`Set.delete` the listener and, when the set became empty, delete the
per-key set from the `listeners` map. -/
def unsubscribe {T E : Type} (st : Store T E) (k : String) (l : Nat) : Store T E :=
  match alGet st.listeners k with
  | none => st
  | some ls =>
      let ls' := ls.erase l
      if ls' = [] then { st with listeners := alDelete st.listeners k }
      else { st with listeners := alSet st.listeners k ls' }

/-! ### The task controller (`useAsyncTask.ts`)

Per-instance mutable state of one hook instance, together with the
shared store.  `requestId` is `requestIdRef`, `unmounted` is
`unmountedRef`, `activeAbortGen` records which request generation owns
`abortControllerRef.current` (absent when that ref is `null`),
`abortedGens` records the generations whose `AbortController` has been
`abort()`ed, `localState` is the `useState` value, and `pollTimer`
whether `pollingTimerRef.current` is set.

`isSyncingRef` is omitted: it is `true` only synchronously inside the
store-subscription callback and is always `false` again at every await
resume point modelled here. -/

structure Ctrl (T E : Type) where
  requestId : Nat
  unmounted : Bool
  activeAbortGen : Option Nat
  abortedGens : List Nat
  localState : AsyncState T E
  store : Store T E
  pollTimer : Bool
  deriving Repr, DecidableEq

/-- A freshly mounted instance over an empty store. -/
def initCtrl (T E : Type) : Ctrl T E :=
  { requestId := 0, unmounted := false, activeAbortGen := none, abortedGens := [],
    localState := (createInitialState T E 0).toAsyncState,
    store := emptyStore T E, pollTimer := false }

/-- `updateLocalState(partial)`: merge into the previous local state
unless the instance has unmounted.  The merge `{ ...prev, ...partial }`
is passed as the function `f`. -/
def updateLocal {T E : Type} (c : Ctrl T E) (f : AsyncState T E → AsyncState T E) :
    Ctrl T E :=
  if c.unmounted then c else { c with localState := f c.localState }

/-- The staleness guard of `performAction`, combined from the source's
checks `unmountedRef.current`, `currentRequestId !== requestIdRef.current`
and `abortController.signal.aborted` (the success branch tests them in
this order; the catch branch tests `aborted` first — the combined value
is the same). -/
def fresh {T E : Type} (c : Ctrl T E) (g : Nat) : Bool :=
  !c.unmounted && decide (g = c.requestId) && !(decide (g ∈ c.abortedGens))

/-- The store entry committed on success:
`{ data, loading: false, error: null, retryCount: 0, lastUpdated: now,
requestId }` — every field written, nothing merged from the previous
entry. -/
def successTask {T E : Type} (r : T) (now : Int) (g : Nat) : TaskState T E :=
  { data := some r, loading := false, error := none, retryCount := 0,
    lastUpdated := some now, requestId := g }

/-- The store entry committed on terminal failure:
`{ ...errorState, requestId }` where `errorState` has no `data` field,
so the entry's `data` is `undefined` (absent) even when the previous
entry had data. -/
def errorTask {T E : Type} (e : E) (rc : Nat) (now : Int) (g : Nat) : TaskState T E :=
  { data := none, loading := false, error := some e, retryCount := rc,
    lastUpdated := some now, requestId := g }

/-- Resumption of `performAction` when the awaited action resolved with
`result`: discard when stale, otherwise commit the success state to the
local state and (when keyed) to the store, then release the abort
handle when it is still this invocation's. -/
def resumeOk {T E : Type} (c : Ctrl T E) (g : Nat) (key : Option String) (r : T)
    (now : Int) : Ctrl T E :=
  if fresh c g then
    let c1 := updateLocal c (fun st =>
      { st with data := some r, loading := false, error := none, retryCount := 0,
                lastUpdated := some now })
    let c2 := match key with
      | some k => { c1 with store := (setState c1.store k (successTask r now g)).1 }
      | none => c1
    if c2.activeAbortGen = some g then { c2 with activeAbortGen := none } else c2
  else c

/-- Resumption of `performAction` when the awaited action rejected with
`e`, the closure's attempt counter being `rc` and the configured
`maxRetries` (`currentOptions.maxRetries || 0`, re-read at resume time)
being `mr`: discard when stale; bump the published `retryCount` when a
retry remains (the re-invocation itself is the next resume); otherwise
commit the terminal error state. -/
def resumeErr {T E : Type} (c : Ctrl T E) (g : Nat) (key : Option String) (e : E)
    (rc mr : Nat) (now : Int) : Ctrl T E :=
  if fresh c g then
    if rc < mr then
      updateLocal c (fun st => { st with retryCount := rc + 1 })
    else
      let c1 := updateLocal c (fun st =>
        { st with loading := false, error := some e, retryCount := rc,
                  lastUpdated := some now })
      let c2 := match key with
        | some k => { c1 with store := (setState c1.store k (errorTask e rc now g)).1 }
        | none => c1
      if c2.activeAbortGen = some g then { c2 with activeAbortGen := none } else c2
  else c

/-- The synchronous prefix of `execute` past the cache check: abort any
previous `AbortController`, install a new one, allocate the new request
generation `++requestIdRef.current`, publish `loading: true` locally
and — when keyed — to the store, merged over the existing entry (or a
fresh initial state). -/
def applyStart {T E : Type} (c : Ctrl T E) (key : Option String) : Ctrl T E :=
  let c1 := match c.activeAbortGen with
    | some gPrev => { c with abortedGens := gPrev :: c.abortedGens }
    | none => c
  let g := c1.requestId + 1
  let c2 := { c1 with requestId := g, activeAbortGen := some g }
  let c3 := updateLocal c2 (fun st => { st with loading := true })
  match key with
  | some k =>
      let existing := (getState c3.store k).getD (createInitialState T E 0)
      { c3 with store :=
          (setState c3.store k { existing with loading := true, requestId := g }).1 }
  | none => c3

/-- `cancel()`: bump `requestIdRef.current`, abort and drop the active
`AbortController`, clear the polling timer.  Local state, store entries
and listeners are untouched. -/
def applyCancel {T E : Type} (c : Ctrl T E) : Ctrl T E :=
  let c1 := { c with requestId := c.requestId + 1 }
  let c2 := match c1.activeAbortGen with
    | some g => { c1 with abortedGens := g :: c1.abortedGens, activeAbortGen := none }
    | none => c1
  { c2 with pollTimer := false }

/-- One completion of an in-flight invocation: the action of generation
`g` (begun by some earlier `applyStart`, with the resolved key captured
in its closure) either resolved or rejected.  Completions of distinct
invocations may arrive in any order. -/
inductive Completion (T E : Type) where
  | ok (g : Nat) (key : Option String) (r : T) (now : Int)
  | err (g : Nat) (key : Option String) (e : E) (rc mr : Nat) (now : Int)

/-- The generation the completing invocation was started with. -/
def genOf {T E : Type} : Completion T E → Nat
  | Completion.ok g _ _ _ => g
  | Completion.err g _ _ _ _ _ => g

/-- Apply one completion to the controller. -/
def applyCompletion {T E : Type} (c : Ctrl T E) : Completion T E → Ctrl T E
  | Completion.ok g key r now => resumeOk c g key r now
  | Completion.err g key e rc mr now => resumeErr c g key e rc mr now

/-- Apply a sequence of completions in order. -/
def applyCompletions {T E : Type} (c : Ctrl T E) (evs : List (Completion T E)) :
    Ctrl T E :=
  evs.foldl applyCompletion c

/-- The outcome of one invocation of the user action: its promise
resolved with a value or rejected with an error. -/
inductive Outcome (T E : Type) where
  | ok (r : T)
  | err (e : E)

/-- `performAction(retryCount)` run to completion with no interference
from other events: attempt `k` observes `outcomes k` at time `times k`.
Structural recursion on `fuel`; both arms carry the same attempt body
(the source's single recursive body), the fuel pattern only
materializing termination.  The wrapper `performAction` passes
`fuel = mr - rc`, which makes the `fuel = 0, rc < mr` branch
unreachable (each retry consumes one unit of fuel and `fuel` starts as
the number of retries left).  Returns the new controller, the value the
`execute` promise resolves with, and the number of attempts made. -/
def performActionGo {T E : Type} (g : Nat) (key : Option String) (mr : Nat)
    (outcomes : Nat → Outcome T E) (times : Nat → Int) :
    Nat → Ctrl T E → Nat → Ctrl T E × Option T × Nat
  | 0, c, rc =>
    (match outcomes rc with
     | Outcome.ok r =>
         if fresh c g then (resumeOk c g key r (times rc), some r, 1)
         else (c, none, 1)
     | Outcome.err e =>
         if fresh c g then
           if rc < mr then (c, none, 1)
           else (resumeErr c g key e rc mr (times rc), none, 1)
         else (c, none, 1))
  | fuel + 1, c, rc =>
    (match outcomes rc with
     | Outcome.ok r =>
         if fresh c g then (resumeOk c g key r (times rc), some r, 1)
         else (c, none, 1)
     | Outcome.err e =>
         if fresh c g then
           if rc < mr then
             let c1 := updateLocal c (fun st => { st with retryCount := rc + 1 })
             let q := performActionGo g key mr outcomes times fuel c1 (rc + 1)
             (q.1, q.2.1, q.2.2 + 1)
           else (resumeErr c g key e rc mr (times rc), none, 1)
         else (c, none, 1))

/-- `performAction()` as called at the end of `execute`, starting at
attempt counter `rc`. -/
def performAction {T E : Type} (c : Ctrl T E) (g : Nat) (key : Option String)
    (mr : Nat) (outcomes : Nat → Outcome T E) (times : Nat → Int) (rc : Nat) :
    Ctrl T E × Option T × Nat :=
  performActionGo g key mr outcomes times (mr - rc) c rc

/-- What the entry of `execute` decided: short-circuit to a cached
value (the action is never invoked), or proceed into `performAction`
under the freshly allocated generation. -/
inductive ExecOutcome (T : Type) where
  | cached (d : Option T)
  | proceed (g : Nat)
  deriving Repr, DecidableEq

/-- The guard `currentOptions.cacheTime && currentOptions.cacheTime > 0`
(`undefined` and `0` are falsy). -/
def cacheEnabled : Option Int → Bool
  | some ct => decide (0 < ct)
  | none => false

/-- The entry of `execute(args)` after the task key has been resolved:
the cache check, and otherwise the `applyStart` prefix.  On a cache
hit the cached `AsyncState` fields are merged into the local state and
the cached `data` is returned with no action invocation, no new
generation and no `loading` transition. -/
def executeEntry {T E : Type} (c : Ctrl T E) (key : Option String)
    (cacheTime : Option Int) (now : Int) : Ctrl T E × ExecOutcome T :=
  match key with
  | some k =>
      if cacheEnabled cacheTime then
        match getState c.store k with
        | some cs =>
            if isCacheValid (some cs) (cacheTime.getD 0) now then
              (updateLocal c (fun st =>
                { st with data := cs.data, loading := false, error := cs.error,
                          retryCount := cs.retryCount, lastUpdated := cs.lastUpdated }),
               ExecOutcome.cached cs.data)
            else (applyStart c key, ExecOutcome.proceed (c.requestId + 1))
        | none => (applyStart c key, ExecOutcome.proceed (c.requestId + 1))
      else (applyStart c key, ExecOutcome.proceed (c.requestId + 1))
  | none => (applyStart c key, ExecOutcome.proceed (c.requestId + 1))

/-! ### The store-subscription effect of the hook -/

/-- `taskKey` configuration: a fixed string or a derivation function
(`string | (() => string)` in the second revision's `types.ts`). -/
inductive TaskKeySpec where
  | fixed (s : String)
  | derived (f : Unit → String)

/-- The placeholder the first revision substitutes for every
function-valued `taskKey` when subscribing. -/
def kDyn : String := "__dynamic__"

/-- The key the FIRST revision's subscription effect subscribes with:
`typeof taskKey === "function" ? "__dynamic__" : taskKey`. -/
def subscribeKeyV1 : Option TaskKeySpec → Option String
  | none => none
  | some (TaskKeySpec.fixed s) => some s
  | some (TaskKeySpec.derived _) => some kDyn

/-- The resolved task key of the second revision (`resolvedTaskKey`):
the actual string value, applying a derivation function. -/
def resolveTaskKey : Option TaskKeySpec → Option String
  | none => none
  | some (TaskKeySpec.fixed s) => some s
  | some (TaskKeySpec.derived f) => some (f ())

/-- The FIRST revision's subscription effect: bail out when no
`taskKey` is configured, otherwise subscribe `syncState` (listener id
`lid`) under `subscribeKeyV1`.  It never reads the store, so the local
state is left as it was.  Returns the new store, the local state after
the effect, and the key subscribed under. -/
def subscribeEffectV1 {T E : Type} (st : Store T E) (localSt : AsyncState T E)
    (tk : Option TaskKeySpec) (lid : Nat) :
    Store T E × AsyncState T E × Option String :=
  match subscribeKeyV1 tk with
  | none => (st, localSt, none)
  | some k => (subscribe st k lid, localSt, some k)

/-- The SECOND revision's subscription effect: bail out when no key
resolved; otherwise pull any existing store entry's `AsyncState`
projection as the initial local state, then subscribe under the actual
resolved key. -/
def subscribeEffectV2 {T E : Type} (st : Store T E) (localSt : AsyncState T E)
    (resolvedKey : Option String) (lid : Nat) :
    Store T E × AsyncState T E × Option String :=
  match resolvedKey with
  | none => (st, localSt, none)
  | some k =>
      let localSt' := match getState st k with
        | some ex => ex.toAsyncState
        | none => localSt
      (subscribe st k lid, localSt', some k)

/-! ### Helper lemmas -/

theorem fresh_iff {T E : Type} (c : Ctrl T E) (g : Nat) :
    fresh c g = true ↔ c.unmounted = false ∧ g = c.requestId ∧ g ∉ c.abortedGens := by
  simp [fresh, Bool.and_eq_true, Bool.not_eq_true', decide_eq_true_eq,
    decide_eq_false_iff_not, and_assoc]

theorem fresh_eq_false {T E : Type} {c : Ctrl T E} {g : Nat} (h : g ≠ c.requestId) :
    fresh c g = false := by
  simp [fresh, h]

@[simp]
theorem updateLocal_requestId {T E : Type} (c : Ctrl T E) (f) :
    (updateLocal c f).requestId = c.requestId := by
  unfold updateLocal; split <;> rfl

@[simp]
theorem updateLocal_unmounted {T E : Type} (c : Ctrl T E) (f) :
    (updateLocal c f).unmounted = c.unmounted := by
  unfold updateLocal; split <;> rfl

@[simp]
theorem updateLocal_abortedGens {T E : Type} (c : Ctrl T E) (f) :
    (updateLocal c f).abortedGens = c.abortedGens := by
  unfold updateLocal; split <;> rfl

@[simp]
theorem updateLocal_activeAbortGen {T E : Type} (c : Ctrl T E) (f) :
    (updateLocal c f).activeAbortGen = c.activeAbortGen := by
  unfold updateLocal; split <;> rfl

@[simp]
theorem updateLocal_store {T E : Type} (c : Ctrl T E) (f) :
    (updateLocal c f).store = c.store := by
  unfold updateLocal; split <;> rfl

theorem fresh_updateLocal {T E : Type} (c : Ctrl T E) (f) (g : Nat) :
    fresh (updateLocal c f) g = fresh c g := by
  unfold updateLocal; split <;> rfl

theorem resumeOk_stale {T E : Type} {c : Ctrl T E} {g : Nat} (key : Option String)
    (r : T) (now : Int) (h : fresh c g = false) : resumeOk c g key r now = c := by
  simp [resumeOk, h]

theorem resumeErr_stale {T E : Type} {c : Ctrl T E} {g : Nat} (key : Option String)
    (e : E) (rc mr : Nat) (now : Int) (h : fresh c g = false) :
    resumeErr c g key e rc mr now = c := by
  simp [resumeErr, h]

theorem resumeOk_requestId {T E : Type} (c : Ctrl T E) (g : Nat) (key : Option String)
    (r : T) (now : Int) : (resumeOk c g key r now).requestId = c.requestId := by
  cases key <;> simp [resumeOk, updateLocal, apply_ite Ctrl.requestId]

theorem resumeErr_requestId {T E : Type} (c : Ctrl T E) (g : Nat) (key : Option String)
    (e : E) (rc mr : Nat) (now : Int) :
    (resumeErr c g key e rc mr now).requestId = c.requestId := by
  cases key <;> simp [resumeErr, updateLocal, apply_ite Ctrl.requestId]

theorem applyStart_requestId {T E : Type} (c : Ctrl T E) (key : Option String) :
    (applyStart c key).requestId = c.requestId + 1 := by
  cases hab : c.activeAbortGen <;> cases key <;> simp [applyStart, hab]

theorem applyStart_localState {T E : Type} (c : Ctrl T E) (key : Option String) :
    (applyStart c key).localState =
      if c.unmounted then c.localState else { c.localState with loading := true } := by
  cases hu : c.unmounted <;> cases hab : c.activeAbortGen <;> cases key <;>
    simp [applyStart, updateLocal, hu, hab]

theorem applyCancel_requestId {T E : Type} (c : Ctrl T E) :
    (applyCancel c).requestId = c.requestId + 1 := by
  cases hab : c.activeAbortGen <;> simp [applyCancel, hab]

theorem applyCancel_localState {T E : Type} (c : Ctrl T E) :
    (applyCancel c).localState = c.localState := by
  cases hab : c.activeAbortGen <;> simp [applyCancel, hab]

theorem resumeOk_localState {T E : Type} {c : Ctrl T E} {g : Nat} (key : Option String)
    (r : T) (now : Int) (hf : fresh c g = true) :
    (resumeOk c g key r now).localState =
      { data := some r, loading := false, error := none, retryCount := 0,
        lastUpdated := some now } := by
  obtain ⟨hu, -, -⟩ := (fresh_iff c g).mp hf
  cases key <;> simp [resumeOk, updateLocal, hf, hu, apply_ite Ctrl.localState]

theorem resumeErr_terminal_localState {T E : Type} {c : Ctrl T E} {g : Nat}
    (key : Option String) (e : E) {rc mr : Nat} (now : Int)
    (hf : fresh c g = true) (hmr : ¬ rc < mr) :
    (resumeErr c g key e rc mr now).localState =
      { c.localState with loading := false, error := some e, retryCount := rc,
                          lastUpdated := some now } := by
  obtain ⟨hu, -, -⟩ := (fresh_iff c g).mp hf
  cases key <;> simp [resumeErr, updateLocal, hf, hmr, hu, apply_ite Ctrl.localState]

theorem resumeOk_store_commit {T E : Type} {c : Ctrl T E} {g : Nat} (k : String)
    (r : T) (now : Int) (hf : fresh c g = true) :
    getState (resumeOk c g (some k) r now).store k = some (successTask r now g) := by
  simp [resumeOk, updateLocal, hf, getState, setState, apply_ite Ctrl.store]

theorem resumeErr_terminal_store_commit {T E : Type} {c : Ctrl T E} {g : Nat}
    (k : String) (e : E) {rc mr : Nat} (now : Int)
    (hf : fresh c g = true) (hmr : ¬ rc < mr) :
    getState (resumeErr c g (some k) e rc mr now).store k = some (errorTask e rc now g) := by
  simp [resumeErr, updateLocal, hf, hmr, getState, setState, apply_ite Ctrl.store]

/-! ### Claim theorems -/

/-- C1: for a single controller instance, across any number of `execute`
calls whose invocations complete in arbitrary order, only the completion
whose captured request generation equals the instance's current counter
ever commits to local state or to the store; the completion (success or
failure) of any earlier-generation invocation changes no state.
Concretely: a completion whose generation differs from the current
counter is the identity on the whole controller (local state, store,
everything), so is any sequence of such completions; each `execute`
start bumps the counter to a fresh generation, and completions never
change the counter, so after a later start every earlier invocation's
generation differs from the counter forever. -/
theorem race_control_only_current_generation_commits {T E : Type} (c : Ctrl T E) :
    (∀ ev : Completion T E, genOf ev ≠ c.requestId → applyCompletion c ev = c)
    ∧ (∀ evs : List (Completion T E), (∀ ev ∈ evs, genOf ev ≠ c.requestId) →
        applyCompletions c evs = c)
    ∧ (∀ key : Option String, (applyStart c key).requestId = c.requestId + 1)
    ∧ (∀ ev : Completion T E, (applyCompletion c ev).requestId = c.requestId) := by
  have hsingle : ∀ ev : Completion T E, genOf ev ≠ c.requestId → applyCompletion c ev = c := by
    intro ev h
    cases ev with
    | ok g key r now =>
        exact resumeOk_stale key r now (fresh_eq_false h)
    | err g key e rc mr now =>
        exact resumeErr_stale key e rc mr now (fresh_eq_false h)
  refine ⟨hsingle, ?_, ?_, ?_⟩
  · intro evs h
    induction evs with
    | nil => rfl
    | cons ev t ih =>
        have he : applyCompletion c ev = c := hsingle ev (h ev (by simp))
        have hstep : applyCompletions c (ev :: t) = applyCompletions (applyCompletion c ev) t := rfl
        rw [hstep, he]
        exact ih (fun e het => h e (by simp [het]))
  · intro key; exact applyStart_requestId c key
  · intro ev
    cases ev with
    | ok g key r now => exact resumeOk_requestId c g key r now
    | err g key e rc mr now => exact resumeErr_requestId c g key e rc mr now

/-- Concrete controller used by witnesses. -/
def cW : Ctrl Nat Nat := initCtrl Nat Nat

/-- Witness for C1: a stale success (generation 5 against counter 0) and
a stale failure are both no-ops on a concrete controller. -/
theorem race_control_witness :
    applyCompletion cW (Completion.ok 5 none 42 100) = cW
    ∧ applyCompletions cW [Completion.err 3 none 7 0 0 50] = cW :=
  ⟨(race_control_only_current_generation_commits cW).1 _ (by decide),
   (race_control_only_current_generation_commits cW).2.1 _ (by
      intro ev hev
      rw [List.mem_singleton] at hev
      subst hev
      decide)⟩

/-- The C2 scenario: `execute` started (generation 1), then `cancel`,
then the action of generation 1 resolves. -/
def c2afterCancel : Ctrl Nat Nat := applyCancel (applyStart (initCtrl Nat Nat) none)

/-- The controller after the cancelled invocation's action resolves
successfully. -/
def c2afterResolve : Ctrl Nat Nat := resumeOk c2afterCancel 1 none 42 100

/-- C2 counterexample: the claim asserts that after `execute`, `cancel`,
and the action's later successful resolution, `loading` is `false`.  On
the code, `execute` set `loading` to `true`, `cancel` does not alter
`loading`, and the stale resolution is discarded without touching state
— so `loading` is still `true` (the claim's other half, that `data` is
not set to the cancelled result, does hold: `data` is still absent). -/
theorem cancel_claim_counterexample :
    c2afterResolve.localState.loading = true ∧ c2afterResolve.localState.data = none := by
  decide

/-- C2 (amended): if `execute` is started and `cancel()` is called
before the action resolves, the action's later successful resolution
commits nothing at all — it is the identity on local state and store,
so `data` is never set to the cancelled result; `data` still holds its
pre-`execute` value, and `loading` remains `true` exactly as `execute`'s
loading transition left it (cancel does not alter `loading`). -/
theorem cancel_suppresses_stale_commit {T E : Type} (c : Ctrl T E)
    (key key2 : Option String) (r : T) (now : Int) :
    resumeOk (applyCancel (applyStart c key)) (c.requestId + 1) key2 r now
      = applyCancel (applyStart c key)
    ∧ (applyCancel (applyStart c key)).localState.data = c.localState.data
    ∧ (c.unmounted = false →
        (applyCancel (applyStart c key)).localState.loading = true) := by
  have hrid : (applyCancel (applyStart c key)).requestId = c.requestId + 2 := by
    rw [applyCancel_requestId, applyStart_requestId]
  refine ⟨?_, ?_, ?_⟩
  · exact resumeOk_stale key2 r now (fresh_eq_false (by omega))
  · rw [applyCancel_localState, applyStart_localState]
    split <;> rfl
  · intro hu
    rw [applyCancel_localState, applyStart_localState, hu]
    rfl

/-- Witness for C2 (amended) at a concrete trace. -/
theorem cancel_suppresses_stale_commit_witness :
    resumeOk c2afterCancel 1 none 42 100 = c2afterCancel
    ∧ c2afterCancel.localState.loading = true :=
  ⟨(cancel_suppresses_stale_commit (initCtrl Nat Nat) none none 42 100).1,
   (cancel_suppresses_stale_commit (initCtrl Nat Nat) none none 42 100).2.2 rfl⟩

/-- The C3 scenario run: a fresh instance, `execute` (generation 1,
unkeyed), `maxRetries = 3`, the action rejecting with `e k` on attempt
`k`. -/
def c3run (T E : Type) (e : Nat → E) (times : Nat → Int) : Ctrl T E × Option T × Nat :=
  performAction (applyStart (initCtrl T E) none) 1 none 3
    (fun k => Outcome.err (e k)) times 0

/-- C3: with `maxRetries = 3` and an action that rejects on every
attempt, a single `execute` call makes 4 attempts in total (the initial
attempt plus exactly 3 re-invocations) and terminates with
`retryCount = 3`, `error` equal to the last thrown error (`e 3`),
`loading = false`, `data` still absent, and the `execute` promise
resolving with nothing. -/
theorem retry_exhaustion (T E : Type) (e : Nat → E) (times : Nat → Int) :
    (c3run T E e times).2.2 = 4
    ∧ (c3run T E e times).2.1 = none
    ∧ (c3run T E e times).1.localState.retryCount = 3
    ∧ (c3run T E e times).1.localState.error = some (e 3)
    ∧ (c3run T E e times).1.localState.loading = false
    ∧ (c3run T E e times).1.localState.data = none :=
  ⟨rfl, rfl, rfl, rfl, rfl, rfl⟩

/-- A store entry whose `lastUpdated` is present and equal to `0`
(the JavaScript-falsy timestamp). -/
def zeroTimeEntry : TaskState Nat Nat :=
  { data := some 1, loading := false, error := none, retryCount := 0,
    lastUpdated := some 0, requestId := 0 }

/-- C4 counterexample: the claim says that when the state is present,
`lastUpdated` is present and `cacheTime > 0`, the result is
`now − lastUpdated < cacheTime`.  With `lastUpdated = 0` (present),
`cacheTime = 10 > 0`, `now = 5`, the claim demands `true`
(`5 − 0 < 10`), but the code's guard `!state.lastUpdated` treats the
number `0` as falsy and returns `false`. -/
theorem isCacheValid_claim_counterexample :
    isCacheValid (some zeroTimeEntry) 10 5 = false
    ∧ zeroTimeEntry.lastUpdated = some 0
    ∧ ((5 : Int) - 0 < 10) := by
  decide

/-- C4 (amended): `isCacheValid(state, cacheTime)` returns `false` when
`state` is absent, when `state.lastUpdated` is absent **or equal to the
falsy timestamp `0`**, or when `cacheTime ≤ 0`; otherwise it returns
`true` iff `now − lastUpdated < cacheTime`, with strict inequality: a
state with `lastUpdated = now − cacheTime` exactly is stale, and one
with `lastUpdated = now − cacheTime + 1` is valid (provided that
timestamp is not `0`). -/
theorem isCacheValid_characterization {T E : Type} (st : Option (TaskState T E))
    (ct now : Int) (s : TaskState T E) :
    (isCacheValid (none : Option (TaskState T E)) ct now = false)
    ∧ (s.lastUpdated = none → isCacheValid (some s) ct now = false)
    ∧ (∀ lu, s.lastUpdated = some lu →
        (isCacheValid (some s) ct now = true ↔ (lu ≠ 0 ∧ 0 < ct ∧ now - lu < ct)))
    ∧ (ct ≤ 0 → isCacheValid st ct now = false)
    ∧ (s.lastUpdated = some (now - ct) → isCacheValid (some s) ct now = false)
    ∧ (s.lastUpdated = some (now - ct + 1) → now - ct + 1 ≠ 0 → 0 < ct →
        isCacheValid (some s) ct now = true) := by
  refine ⟨rfl, ?_, ?_, ?_, ?_, ?_⟩
  · intro h
    simp [isCacheValid, h]
  · intro lu hlu
    simp only [isCacheValid, hlu]
    split_ifs with h0 hct
    · simp [h0]
    · constructor
      · intro h; exact absurd h (by simp)
      · rintro ⟨-, h2, -⟩; omega
    · simp only [decide_eq_true_eq]
      constructor
      · intro h; exact ⟨h0, by omega, h⟩
      · rintro ⟨-, -, h3⟩; exact h3
  · intro hct
    cases st with
    | none => rfl
    | some s' =>
        cases hlu : s'.lastUpdated with
        | none => simp [isCacheValid, hlu]
        | some lu =>
            simp only [isCacheValid, hlu]
            split_ifs with h0
            · rfl
            · rfl
  · intro h
    simp only [isCacheValid, h]
    split_ifs with h0 hct
    · rfl
    · rfl
    · simp only [decide_eq_false_iff_not]
      omega
  · intro h hne hct
    simp only [isCacheValid, h]
    split_ifs with h0 hc
    · exact absurd h0 hne
    · omega
    · simp only [decide_eq_true_eq]
      omega

/-- Witness for C4 (amended): a concrete valid entry one millisecond
inside the window, and a concrete entry exactly at the boundary. -/
theorem isCacheValid_characterization_witness :
    (isCacheValid (some (successTask (42 : Nat) 901 1 : TaskState Nat Nat)) 100 1000 = true)
    ∧ (isCacheValid (some (successTask (42 : Nat) 900 1 : TaskState Nat Nat)) 100 1000 = false) := by
  have h := isCacheValid_characterization (T := Nat) (E := Nat) none 100 1000
    (successTask 42 901 1)
  have h2 := isCacheValid_characterization (T := Nat) (E := Nat) none 100 1000
    (successTask 42 900 1)
  exact ⟨h.2.2.2.2.2 rfl (by decide) (by decide), h2.2.2.2.2.1 rfl⟩

/-- First step of the C6 trace: a successful unkeyed `execute` commits
`data = 42`. -/
def c6afterSuccess : Ctrl Nat Nat :=
  resumeOk (applyStart (initCtrl Nat Nat) none) 1 none 42 100

/-- Second step of the C6 trace: a second `execute` whose action rejects
with `7` and `maxRetries = 0` commits a terminal failure. -/
def c6afterFailure : Ctrl Nat Nat :=
  resumeErr (applyStart c6afterSuccess none) 2 none 7 0 0 200

/-- C6 counterexample: after a successful commit (`data = 42`) followed
by a terminal failure commit (`error = 7`), the local state is terminal
(`loading = false`) yet holds BOTH a non-absent `data` and a non-absent
`error` — the failure retains the previous data ("last known good")
while setting the error, so "at most one of data/error is non-absent"
fails on the code. -/
theorem data_error_claim_counterexample :
    c6afterFailure.localState.data = some 42
    ∧ c6afterFailure.localState.error = some 7
    ∧ c6afterFailure.localState.loading = false := by
  decide

/-- C6 (amended): a fresh success commit sets `data` and clears `error`,
so after a success commit at most one of `data`/`error` is non-absent; a
fresh terminal failure commit sets `error` but does not set `data` —
local `data` retains its previous value, so local `data` and `error` can
be non-absent simultaneously after a failure that follows a success.
Store entries, by contrast, always satisfy the at-most-one property:
the success entry has `error` absent and the failure entry has `data`
absent (the failure commit's store spread drops the `data` field). -/
theorem terminal_commit_data_error {T E : Type} (c : Ctrl T E) (g : Nat)
    (key : Option String) (r : T) (e : E) (rc mr : Nat) (now : Int)
    (hf : fresh c g = true) :
    ((resumeOk c g key r now).localState.data = some r
      ∧ (resumeOk c g key r now).localState.error = none)
    ∧ (¬ rc < mr →
        (resumeErr c g key e rc mr now).localState.data = c.localState.data
        ∧ (resumeErr c g key e rc mr now).localState.error = some e)
    ∧ (∀ k, key = some k →
        getState (resumeOk c g key r now).store k = some (successTask r now g)
        ∧ (successTask r now g : TaskState T E).error = none
        ∧ (¬ rc < mr →
            getState (resumeErr c g key e rc mr now).store k = some (errorTask e rc now g)
            ∧ (errorTask e rc now g : TaskState T E).data = none)) := by
  refine ⟨?_, ?_, ?_⟩
  · rw [resumeOk_localState key r now hf]
    exact ⟨rfl, rfl⟩
  · intro hmr
    rw [resumeErr_terminal_localState key e now hf hmr]
    exact ⟨rfl, rfl⟩
  · intro k hk
    subst hk
    refine ⟨resumeOk_store_commit k r now hf, rfl, ?_⟩
    intro hmr
    exact ⟨resumeErr_terminal_store_commit k e now hf hmr, rfl⟩

/-- The controller used by the C6 witness: mid-flight at generation 1. -/
def c6w : Ctrl Nat Nat := applyStart (initCtrl Nat Nat) none

/-- Witness for C6 (amended) at concrete inputs. -/
theorem terminal_commit_data_error_witness :
    ((resumeOk c6w 1 none (42 : Nat) 100).localState.data = some 42
      ∧ (resumeOk c6w 1 none (42 : Nat) 100).localState.error = none)
    ∧ (resumeErr c6w 1 none (7 : Nat) 0 0 100).localState.data = c6w.localState.data := by
  have h := terminal_commit_data_error c6w 1 none (42 : Nat) (7 : Nat) 0 0 100 (by decide)
  exact ⟨h.1, (h.2.1 (by decide)).1⟩

/-! ### Single-step unfolding lemmas for `performActionGo` -/

theorem performActionGo_stale {T E : Type} {g : Nat} {key : Option String} {mr : Nat}
    {outcomes : Nat → Outcome T E} {times : Nat → Int} {fuel : Nat} {c : Ctrl T E}
    {rc : Nat} (hf : fresh c g = false) :
    performActionGo g key mr outcomes times fuel c rc = (c, none, 1) := by
  cases fuel <;> cases ho : outcomes rc <;> simp [performActionGo, ho, hf]

theorem performActionGo_ok_fresh {T E : Type} {g : Nat} {key : Option String} {mr : Nat}
    {outcomes : Nat → Outcome T E} {times : Nat → Int} {fuel : Nat} {c : Ctrl T E}
    {rc : Nat} {r : T} (ho : outcomes rc = Outcome.ok r) (hf : fresh c g = true) :
    performActionGo g key mr outcomes times fuel c rc
      = (resumeOk c g key r (times rc), some r, 1) := by
  cases fuel <;> simp [performActionGo, ho, hf]

theorem performActionGo_err_terminal {T E : Type} {g : Nat} {key : Option String}
    {mr : Nat} {outcomes : Nat → Outcome T E} {times : Nat → Int} {fuel : Nat}
    {c : Ctrl T E} {rc : Nat} {e : E} (ho : outcomes rc = Outcome.err e)
    (hf : fresh c g = true) (hrm : ¬ rc < mr) :
    performActionGo g key mr outcomes times fuel c rc
      = (resumeErr c g key e rc mr (times rc), none, 1) := by
  cases fuel <;> simp [performActionGo, ho, hf, hrm]

theorem performActionGo_err_retry {T E : Type} {g : Nat} {key : Option String}
    {mr : Nat} {outcomes : Nat → Outcome T E} {times : Nat → Int} {fuel : Nat}
    {c : Ctrl T E} {rc : Nat} {e : E} (ho : outcomes rc = Outcome.err e)
    (hf : fresh c g = true) (hrm : rc < mr) :
    performActionGo g key mr outcomes times (fuel + 1) c rc
      = ((performActionGo g key mr outcomes times fuel
            (updateLocal c (fun st => { st with retryCount := rc + 1 })) (rc + 1)).1,
         (performActionGo g key mr outcomes times fuel
            (updateLocal c (fun st => { st with retryCount := rc + 1 })) (rc + 1)).2.1,
         (performActionGo g key mr outcomes times fuel
            (updateLocal c (fun st => { st with retryCount := rc + 1 })) (rc + 1)).2.2 + 1) := by
  simp [performActionGo, ho, hf, hrm]

theorem performActionGo_some_ok {T E : Type} {g : Nat} {key : Option String} {mr : Nat}
    {outcomes : Nat → Outcome T E} {times : Nat → Int} :
    ∀ (fuel : Nat) (c : Ctrl T E) (rc : Nat), rc ≤ mr →
      ∀ d, (performActionGo g key mr outcomes times fuel c rc).2.1 = some d →
        ∃ k, rc ≤ k ∧ k ≤ mr ∧ outcomes k = Outcome.ok d := by
  intro fuel
  induction fuel with
  | zero =>
      intro c rc hrc d hd
      cases hf : fresh c g with
      | false =>
          rw [performActionGo_stale hf] at hd
          simp at hd
      | true =>
          cases ho : outcomes rc with
          | ok r =>
              rw [performActionGo_ok_fresh ho hf] at hd
              simp at hd
              subst hd
              exact ⟨rc, le_refl rc, hrc, ho⟩
          | err e =>
              by_cases hrm : rc < mr
              · simp [performActionGo, ho, hf, hrm] at hd
              · rw [performActionGo_err_terminal ho hf hrm] at hd
                simp at hd
  | succ fuel ih =>
      intro c rc hrc d hd
      cases hf : fresh c g with
      | false =>
          rw [performActionGo_stale hf] at hd
          simp at hd
      | true =>
          cases ho : outcomes rc with
          | ok r =>
              rw [performActionGo_ok_fresh ho hf] at hd
              simp at hd
              subst hd
              exact ⟨rc, le_refl rc, hrc, ho⟩
          | err e =>
              by_cases hrm : rc < mr
              · rw [performActionGo_err_retry ho hf hrm] at hd
                obtain ⟨k, hk1, hk2, hk3⟩ := ih _ (rc + 1) hrm d hd
                exact ⟨k, Nat.le_trans (Nat.le_succ rc) hk1, hk2, hk3⟩
              · rw [performActionGo_err_terminal ho hf hrm] at hd
                simp at hd

theorem performActionGo_allerr {T E : Type} {g : Nat} {key : Option String} {mr : Nat}
    {outcomes : Nat → Outcome T E} {times : Nat → Int} (es : Nat → E)
    (hout : ∀ k, outcomes k = Outcome.err (es k)) :
    ∀ (fuel : Nat) (c : Ctrl T E) (rc : Nat), rc ≤ mr → mr ≤ rc + fuel →
      fresh c g = true →
      (performActionGo g key mr outcomes times fuel c rc).2.1 = none
      ∧ (performActionGo g key mr outcomes times fuel c rc).1.localState.error
          = some (es mr)
      ∧ (performActionGo g key mr outcomes times fuel c rc).1.localState.loading
          = false := by
  intro fuel
  induction fuel with
  | zero =>
      intro c rc h1 h2 hf
      have heq : rc = mr := by omega
      subst heq
      have hrm : ¬ rc < rc := lt_irrefl rc
      rw [performActionGo_err_terminal (hout rc) hf hrm]
      have hls := resumeErr_terminal_localState key (es rc) (times rc) hf hrm
      refine ⟨rfl, ?_, ?_⟩
      · show (resumeErr c g key (es rc) rc rc (times rc)).localState.error = some (es rc)
        rw [hls]
      · show (resumeErr c g key (es rc) rc rc (times rc)).localState.loading = false
        rw [hls]
  | succ fuel ih =>
      intro c rc h1 h2 hf
      by_cases hrm : rc < mr
      · have hf1 : fresh (updateLocal c (fun st => { st with retryCount := rc + 1 })) g
            = true := by
          rw [fresh_updateLocal]; exact hf
        have ihh := ih (updateLocal c (fun st => { st with retryCount := rc + 1 }))
          (rc + 1) hrm (by omega) hf1
        rw [performActionGo_err_retry (hout rc) hf hrm]
        exact ⟨ihh.1, ihh.2.1, ihh.2.2⟩
      · have heq : rc = mr := by omega
        subst heq
        rw [performActionGo_err_terminal (hout rc) hf hrm]
        have hls := resumeErr_terminal_localState key (es rc) (times rc) hf hrm
        refine ⟨rfl, ?_, ?_⟩
        · show (resumeErr c g key (es rc) rc rc (times rc)).localState.error = some (es rc)
          rw [hls]
        · show (resumeErr c g key (es rc) rc rc (times rc)).localState.loading = false
          rw [hls]

/-- C5: every failure past the first asynchronous boundary of `execute`
is absorbed: the `execute` promise always resolves (the run of
`performAction` is a total function into `Option`), it resolves with
`some d` only when some attempt's action actually resolved with `d`
(on every rejection and on every stale/cancelled discard it resolves
with nothing — never a rejection), a stale/cancelled run discards
silently without touching state, and when every attempt rejects while
the run stays fresh, the only record of the failure is the state's
`error` field (with `loading` back to `false`). -/
theorem execute_resolution_policy {T E : Type} (c : Ctrl T E) (g : Nat)
    (key : Option String) (mr : Nat) (outcomes : Nat → Outcome T E)
    (times : Nat → Int) (rc : Nat) (hrc : rc ≤ mr) :
    (fresh c g = false → performAction c g key mr outcomes times rc = (c, none, 1))
    ∧ (∀ d, (performAction c g key mr outcomes times rc).2.1 = some d →
        ∃ k, rc ≤ k ∧ k ≤ mr ∧ outcomes k = Outcome.ok d)
    ∧ (∀ es : Nat → E, (∀ k, outcomes k = Outcome.err (es k)) → fresh c g = true →
        (performAction c g key mr outcomes times rc).2.1 = none
        ∧ (performAction c g key mr outcomes times rc).1.localState.error = some (es mr)
        ∧ (performAction c g key mr outcomes times rc).1.localState.loading = false) := by
  refine ⟨?_, ?_, ?_⟩
  · intro hf
    exact performActionGo_stale hf
  · intro d hd
    exact performActionGo_some_ok (mr - rc) c rc hrc d hd
  · intro es hout hf
    exact performActionGo_allerr es hout (mr - rc) c rc hrc (by omega) hf

/-- The controller used by the C5 witness: mid-flight at generation 1. -/
def c5c : Ctrl Nat Nat := applyStart (initCtrl Nat Nat) none

/-- Witness for C5 at concrete inputs: two retries allowed, every
attempt rejecting with `k + 10`; the promise resolves with nothing and
the final error is the last thrown error `12`. -/
theorem execute_resolution_policy_witness :
    (performAction c5c 1 none 2 (fun k => Outcome.err (k + 10)) (fun _ => (0 : Int)) 0).2.1
      = none
    ∧ (performAction c5c 1 none 2 (fun k => Outcome.err (k + 10))
        (fun _ => (0 : Int)) 0).1.localState.error = some 12
    ∧ (performAction c5c 1 none 2 (fun k => Outcome.err (k + 10))
        (fun _ => (0 : Int)) 0).1.localState.loading = false :=
  (execute_resolution_policy c5c 1 none 2 (fun k => Outcome.err (k + 10))
      (fun _ => (0 : Int)) 0 (by decide)).2.2
    (fun k => k + 10) (fun k => rfl) (by decide)

/-! ### C7: subscription keys -/

/-- Concrete task-key string used by the C7 scenario. -/
def kUser : String := "user-1"

/-- A derived (function-valued) `taskKey` resolving to `kUser`. -/
def fUser : Unit → String := fun _ => kUser

/-- An existing store entry under the resolved key. -/
def entryU : TaskState Nat Nat :=
  { data := some 42, loading := false, error := none, retryCount := 0,
    lastUpdated := some 50, requestId := 1 }

/-- A store holding `entryU` under the resolved key `kUser`. -/
def stU : Store Nat Nat := (setState (emptyStore Nat Nat) kUser entryU).1

/-- The hook's initial local state. -/
def localInit : AsyncState Nat Nat := (createInitialState Nat Nat 0).toAsyncState

/-- C7 (code bug): the claim — matching the second revision and the
spec's stated intent — requires every subscription to use the actual
resolved key string and to pull any existing entry as the initial local
state.  The first revision's subscription effect instead substitutes
the fixed placeholder `"__dynamic__"` for every function-valued
`taskKey` and never pulls the existing entry; the spec itself flags this
path as a likely defect.  At the failing input (a derived key resolving
to `"user-1"` with an existing entry under `"user-1"`): revision 1
subscribes under the placeholder, which differs from the resolved key,
and leaves the local state untouched; revision 2 subscribes under the
actual resolved key and pulls the entry. -/
theorem dynamic_key_subscription_bug :
    resolveTaskKey (some (TaskKeySpec.derived fUser)) = some kUser
    ∧ (subscribeEffectV1 stU localInit (some (TaskKeySpec.derived fUser)) 0).2.2 = some kDyn
    ∧ kDyn ≠ kUser
    ∧ (subscribeEffectV1 stU localInit (some (TaskKeySpec.derived fUser)) 0).2.1 = localInit
    ∧ (subscribeEffectV2 stU localInit
        (resolveTaskKey (some (TaskKeySpec.derived fUser))) 0).2.2 = some kUser
    ∧ (subscribeEffectV2 stU localInit
        (resolveTaskKey (some (TaskKeySpec.derived fUser))) 0).2.1 = entryU.toAsyncState := by
  refine ⟨rfl, rfl, by decide, rfl, rfl, ?_⟩
  simp [subscribeEffectV2, resolveTaskKey, getState, stU, setState, fUser]

/-! ### C8: cache short-circuit -/

/-- Concrete task key used by the C8 scenario. -/
def kK : String := "cache-key"

/-- The C8 trace, first half: a keyed `execute` over an empty store (a
cache miss) proceeds under generation 1, and its action then rejects
terminally (`maxRetries = 0`) at time 50, committing a failure entry to
the store. -/
def c8afterFail : Ctrl Nat Nat :=
  resumeErr ((executeEntry (initCtrl Nat Nat) (some kK) (some 100) 0).1) 1 (some kK)
    7 0 0 50

/-- The C8 trace, second half: a repeat keyed `execute` with
`cacheTime = 100` at time 100, inside the window of the failure entry. -/
def c8retry : Ctrl Nat Nat × ExecOutcome Nat :=
  executeEntry c8afterFail (some kK) (some 100) 100

/-- C8 counterexample: the claim says a store entry produced by a
terminal failure does not cause a cache short-circuit.  On the code, the
failure commit writes an entry whose `lastUpdated` is set, and the
cache check consults only `lastUpdated`, so the repeat call
short-circuits to the cached failure entry (returning its absent
`data`) without invoking the action. -/
theorem cache_failure_entry_counterexample :
    getState c8afterFail.store kK = some (errorTask 7 0 50 1)
    ∧ c8retry.2 = ExecOutcome.cached none := by
  decide

/-- C8 (amended): for a keyed `execute` with `cacheTime > 0`, the call
short-circuits — committing the cached `AsyncState` to local state and
returning the cached `data` without invoking the action, consuming no
request generation, writing nothing to the store and making no loading
transition — exactly when `isCacheValid` holds of the store entry; this
covers the window after **any** terminal commit, a failure entry
included (its cached error state is then served), not only after a
successful one.  When no entry exists or `isCacheValid` fails, the call
proceeds and allocates the next generation. -/
theorem cache_short_circuit {T E : Type} (c : Ctrl T E) (k : String) (ct now : Int)
    (cs : TaskState T E) (hct : 0 < ct) :
    (getState c.store k = some cs → isCacheValid (some cs) ct now = true →
      (executeEntry c (some k) (some ct) now).2 = ExecOutcome.cached cs.data
      ∧ (executeEntry c (some k) (some ct) now).1.requestId = c.requestId
      ∧ (executeEntry c (some k) (some ct) now).1.store = c.store
      ∧ (c.unmounted = false →
          (executeEntry c (some k) (some ct) now).1.localState.loading = false))
    ∧ (isCacheValid (getState c.store k) ct now = false →
      (executeEntry c (some k) (some ct) now).2 = ExecOutcome.proceed (c.requestId + 1)) := by
  have hce : cacheEnabled (some ct) = true := by simp [cacheEnabled, hct]
  constructor
  · intro hcs hvalid
    refine ⟨?_, ?_, ?_, ?_⟩ <;>
      simp [executeEntry, hce, hcs, hvalid, updateLocal, apply_ite Ctrl.requestId,
        apply_ite Ctrl.store, apply_ite Ctrl.localState]
    intro hu
    simp [hu]
  · intro hinvalid
    cases hcs : getState c.store k with
    | none => simp [executeEntry, hce, hcs]
    | some cs' =>
        rw [hcs] at hinvalid
        simp [executeEntry, hce, hcs, hinvalid]

/-- The store used by the C8 witness: a valid success entry committed
at time 90 under `kK`. -/
def c8good : Ctrl Nat Nat :=
  { initCtrl Nat Nat with store := (setState (emptyStore Nat Nat) kK (successTask 42 90 1)).1 }

/-- Witness for C8 (amended): at time 100 with `cacheTime = 100`, the
keyed call short-circuits to the cached data without a new generation. -/
theorem cache_short_circuit_witness :
    (executeEntry c8good (some kK) (some 100) 100).2 = ExecOutcome.cached (some 42)
    ∧ (executeEntry c8good (some kK) (some 100) 100).1.requestId = 0 := by
  have h := (cache_short_circuit c8good kK 100 100 (successTask 42 90 1)
    (by decide)).1 (by decide) (by decide)
  exact ⟨h.1, h.2.1⟩

/-! ### C9: setState notification contract -/

theorem setState_countP {T E : Type} (st : Store T E) (k : String) (s : TaskState T E)
    (l : Nat) :
    ((setState st k s).2.countP (fun p => p.1 == l)) = (listenersOf st k).count l := by
  show ((listenersOf st k).map (fun a => (a, s.toAsyncState))).countP (fun p => p.1 == l)
      = (listenersOf st k).count l
  rw [List.countP_map]
  rfl

/-- C9: `setState(key, state)` overwrites the entry for `key` (leaving
every other key's entry alone), synchronously delivers to exactly the
listeners currently subscribed to `key` — each exactly once when the
listener set is duplicate-free, which JavaScript `Set` semantics
guarantee — the `AsyncState` projection of `state` with the `requestId`
field stripped; listeners not subscribed to `key` receive nothing, no
de-duplication against the previous entry occurs (the delivery list
depends only on the listener set and the new state, never on the stored
value), and the listener map is untouched. -/
theorem setState_notification_contract {T E : Type} (st : Store T E) (k k' : String)
    (s : TaskState T E) :
    getState (setState st k s).1 k = some s
    ∧ (k' ≠ k → getState (setState st k s).1 k' = getState st k')
    ∧ (setState st k s).2 = (listenersOf st k).map (fun l => (l, s.toAsyncState))
    ∧ ((listenersOf st k).Nodup → ∀ l ∈ listenersOf st k,
        ((setState st k s).2.countP (fun p => p.1 == l)) = 1)
    ∧ (∀ l, l ∉ listenersOf st k → ((setState st k s).2.countP (fun p => p.1 == l)) = 0)
    ∧ (setState st k s).1.listeners = st.listeners := by
  refine ⟨?_, ?_, rfl, ?_, ?_, rfl⟩
  · simp [getState, setState]
  · intro h
    simp [getState, setState, alGet_alSet_ne _ _ h]
  · intro hnd l hl
    rw [setState_countP]
    exact List.count_eq_one_of_mem hnd hl
  · intro l hl
    rw [setState_countP]
    exact List.count_eq_zero.mpr hl

/-- The store used by the C9 witness: listeners `0` and `1` subscribed
under `kK`. -/
def st9 : Store Nat Nat := subscribe (subscribe (emptyStore Nat Nat) kK 0) kK 1

/-- Witness for C9 at a concrete store: the entry is overwritten, other
keys are unaffected, and listener `0` is notified exactly once. -/
theorem setState_notification_contract_witness :
    getState (setState st9 kK (successTask 5 10 1)).1 kK = some (successTask 5 10 1)
    ∧ getState (setState st9 kK (successTask 5 10 1)).1 kUser = getState st9 kUser
    ∧ ((setState st9 kK (successTask 5 10 1)).2.countP (fun p => p.1 == 0)) = 1 := by
  have h := setState_notification_contract st9 kK kUser (successTask 5 10 1)
  exact ⟨h.1, h.2.1 (by decide), h.2.2.2.1 (by decide) 0 (by decide)⟩

/-! ### C10: subscribe set semantics -/

theorem setAdd_erase (cur : List Nat) (l : Nat) :
    (setAdd cur l).erase l = cur.erase l := by
  by_cases h : l ∈ cur
  · simp [setAdd, h]
  · rw [setAdd, if_neg h, List.erase_append_right _ h, List.erase_of_not_mem h]
    simp

theorem mem_setAdd (cur : List Nat) (l : Nat) : l ∈ setAdd cur l := by
  by_cases h : l ∈ cur <;> simp [setAdd, h]

theorem setAdd_of_mem {cur : List Nat} {l : Nat} (h : l ∈ cur) : setAdd cur l = cur := by
  simp [setAdd, h]

theorem setAdd_idem (cur : List Nat) (l : Nat) : setAdd (setAdd cur l) l = setAdd cur l :=
  setAdd_of_mem (mem_setAdd cur l)

theorem listenersOf_subscribe_self {T E : Type} (st : Store T E) (k : String) (l : Nat) :
    listenersOf (subscribe st k l) k = setAdd (listenersOf st k) l := by
  simp [subscribe, listenersOf]

/-- C10: registering the same listener function twice for the same key
is a no-op the second time (the per-key collection is a `Set` keyed on
function identity), a single `setState` then notifies that listener
exactly once, one call to the returned unsubscribe closure removes the
listener entirely, and when it was the key's last listener the per-key
set itself is deleted from the listener map. -/
theorem subscribe_set_semantics {T E : Type} (st : Store T E) (k : String) (l : Nat) :
    subscribe (subscribe st k l) k l = subscribe st k l
    ∧ l ∈ listenersOf (subscribe st k l) k
    ∧ ((listenersOf st k).Nodup → ∀ s : TaskState T E,
        ((setState (subscribe (subscribe st k l) k l) k s).2.countP
          (fun p => p.1 == l)) = 1)
    ∧ listenersOf (unsubscribe (subscribe (subscribe st k l) k l) k l) k
        = (listenersOf st k).erase l
    ∧ (listenersOf st k = [] ∨ listenersOf st k = [l] →
        alGet (unsubscribe (subscribe (subscribe st k l) k l) k l).listeners k = none) := by
  have hsub_eq : ∀ st' : Store T E, subscribe st' k l
      = { st' with listeners := alSet st'.listeners k (setAdd (listenersOf st' k) l) } :=
    fun _ => rfl
  have hmem : l ∈ listenersOf (subscribe st k l) k := by
    rw [listenersOf_subscribe_self]
    exact mem_setAdd _ l
  have hidem : subscribe (subscribe st k l) k l = subscribe st k l := by
    rw [hsub_eq (subscribe st k l), listenersOf_subscribe_self, setAdd_idem,
      hsub_eq st]
    simp [alSet_alSet_self]
  have hcount : ∀ s : TaskState T E, (listenersOf st k).Nodup →
      ((setState (subscribe (subscribe st k l) k l) k s).2.countP
        (fun p => p.1 == l)) = 1 := by
    intro s hnd
    rw [hidem]
    rw [setState_countP, listenersOf_subscribe_self]
    by_cases h : l ∈ listenersOf st k
    · rw [setAdd_of_mem h]
      exact List.count_eq_one_of_mem hnd h
    · rw [setAdd, if_neg h]
      rw [List.count_append, List.count_eq_zero.mpr h]
      simp
  have hget : alGet (subscribe st k l).listeners k
      = some (setAdd (listenersOf st k) l) := by
    simp [subscribe, listenersOf]
  have hunsub : unsubscribe (subscribe st k l) k l
      = (if (listenersOf st k).erase l = []
         then { subscribe st k l with
                listeners := alDelete (subscribe st k l).listeners k }
         else { subscribe st k l with
                listeners := alSet (subscribe st k l).listeners k
                  ((listenersOf st k).erase l) }) := by
    rw [unsubscribe, hget]
    simp only [setAdd_erase]
  have herase : listenersOf (unsubscribe (subscribe (subscribe st k l) k l) k l) k
      = (listenersOf st k).erase l := by
    rw [hidem, hunsub]
    by_cases hemp : (listenersOf st k).erase l = []
    · rw [if_pos hemp]
      simp only [listenersOf, alGet_alDelete_self, Option.getD_none]
      exact hemp.symm
    · rw [if_neg hemp]
      simp [listenersOf]
  refine ⟨hidem, hmem, fun hnd s => hcount s hnd, herase, ?_⟩
  intro hcase
  rw [hidem, hunsub]
  have hnil : (listenersOf st k).erase l = [] := by
    rcases hcase with h | h <;> simp [h]
  rw [if_pos hnil]
  simp

/-- Witness for C10 at a concrete store: double-subscribing listener `3`
under `kK` over the empty store registers it once, one `setState`
notifies it exactly once, and unsubscribing deletes the per-key set. -/
theorem subscribe_set_semantics_witness :
    subscribe (subscribe (emptyStore Nat Nat) kK 3) kK 3
      = subscribe (emptyStore Nat Nat) kK 3
    ∧ ((setState (subscribe (subscribe (emptyStore Nat Nat) kK 3) kK 3) kK
        (successTask 5 10 1)).2.countP (fun p => p.1 == 3)) = 1
    ∧ alGet (unsubscribe (subscribe (subscribe (emptyStore Nat Nat) kK 3) kK 3)
        kK 3).listeners kK = none := by
  have h := subscribe_set_semantics (emptyStore Nat Nat) kK 3
  exact ⟨h.1, h.2.2.1 (by decide) (successTask 5 10 1), h.2.2.2.2 (Or.inl rfl)⟩

end AsyncTask
